import Mathlib

/-!
Shallow embedding of the rating scripts of this repository.

The embedded sources are:
* `comment_rating_per_v2.py` — `rate_comment` (regex reply parsing),
  `init_db`, `write_rows` (DuckDB sink);
* `comment_rating.py` — `save_to_feather_with_timestamp`, the final save
  step, and the API-key presence check;
* `gender_prediction.py` — `predict_gender`.

Remote calls and the filesystem are modelled by explicit parameters:
the outcome of the OpenAI call is an `Except String String` (error
description or reply text), the database file is an `Option DB`, and a
storage write is an `Except String Unit`.  Character classes of the
Python regex (`\s`, `\d`, `.`) are modelled over ASCII.
-/

namespace TagPilot

/-- Python whitespace as tested by `str.strip` and matched by the regex
class `\s` (ASCII fragment): space, tab, newline, carriage return,
vertical tab, form feed. -/
def isPySpace (c : Char) : Bool :=
  c = ' ' || c = '\t' || c = '\n' || c = '\r' || c = '\x0b' || c = '\x0c'

/-- Python `str.strip()` on a list of characters: drop whitespace from
both ends. -/
def pyStripL (l : List Char) : List Char :=
  ((l.dropWhile isPySpace).reverse.dropWhile isPySpace).reverse

/-- Python `str.lower()` (ASCII fragment). -/
def pyLower (l : List Char) : List Char :=
  l.map Char.toLower

/-- Python substring test `needle in haystack`: does `n` occur
contiguously inside `h`? -/
def occurs (n : List Char) : List Char → Bool
  | [] => n.isEmpty
  | c :: t => n.isPrefixOf (c :: t) || occurs n t

/-! ### The reply regex of `comment_rating_per_v2.py`

`re.match(r"\[\s*(\d)\s*,\s*(.+?)\s*\]$", raw)` is embedded as an
explicit backtracking matcher with Python preference order: `\s*` is
greedy (consume first, fall back to fewer), `(.+?)` is lazy (try the
continuation after each character, extend on failure), `.` matches any
character except newline, and `$` is end of input (the input is already
stripped, so the before-final-newline case of `$` cannot arise). -/

/-- Matcher for `\s*` followed by continuation `k`, greedy with
backtracking. -/
def starWs (k : List Char → Option α) : List Char → Option α
  | [] => k []
  | c :: cs =>
    if isPySpace c then (starWs k cs) <|> k (c :: cs) else k (c :: cs)

/-- Matcher for `(.+?)` followed by continuation `k`, lazy: `k` gets the
captured group and the rest of the input; a newline stops the dot. -/
def plusLazy (k : List Char → List Char → Option α) (acc : List Char) :
    List Char → Option α
  | [] => none
  | c :: cs =>
    if c = '\n' then none
    else (k (acc ++ [c]) cs) <|> plusLazy k (acc ++ [c]) cs

/-- Matcher for the final `\]$`: succeeds (returning the captured group
`g`) exactly when the rest of the input is the single closing bracket. -/
def bracketEnd (g : List Char) (r : List Char) : Option (List Char) :=
  if r = [']'] then some g else none

/-- Matcher for `\s*(.+?)\s*\]$`, the part of the reply regex after the
comma; returns the second capture group. -/
def tailMatch (r : List Char) : Option (List Char) :=
  starWs (fun r1 => plusLazy (fun g r2 => starWs (bracketEnd g) r2) [] r1) r

/-- The whole reply regex `\[\s*(\d)\s*,\s*(.+?)\s*\]$` anchored at the
start (`re.match`); returns the digit character and the reason group. -/
def rateMatch (l : List Char) : Option (Char × List Char) :=
  match l with
  | [] => none
  | b :: r0 =>
    if b = '[' then
      starWs (fun r1 =>
        match r1 with
        | [] => none
        | d :: r2 =>
          if d.isDigit then
            starWs (fun r3 =>
              match r3 with
              | [] => none
              | c :: r4 =>
                if c = ',' then (tailMatch r4).map (fun g => (d, g))
                else none) r2
          else none) r0
    else none

/-- Python `int` on a single digit character. -/
def digitToNat (c : Char) : Nat :=
  c.toNat - '0'.toNat

/-! ### `rate_comment` of `comment_rating_per_v2.py` -/

/-- Body of the `try` block of `rate_comment` after the remote call
(lines 62–67 of `comment_rating_per_v2.py`), applied to the stripped
reply `raw`: the `[NaN,NaN]` sentinel yields a not-applicable result,
a regex match yields (score, reason, raw), and a mismatch raises
`ValueError(f"Unexpected format: {raw}")`, modelled as `Except.error`. -/
def parse_reply (raw : String) : Except String (Option Nat × String × String) :=
  if raw = "[NaN,NaN]" then Except.ok (none, "", raw)
  else
    match rateMatch raw.toList with
    | some (d, g) => Except.ok (some (digitToNat d), String.mk g, raw)
    | none => Except.error ("Unexpected format: " ++ raw)

/-- `rate_comment` of `comment_rating_per_v2.py`, with the remote call's
outcome passed in: a fault of the call is `Except.error` with the
exception's description; a reply is stripped and parsed, and any
exception (remote fault or the parse `ValueError`) is caught by the
`except` clause, which returns `(None, "", f"Error: {e}")`. -/
def rate_comment (remote : Except String String) : Option Nat × String × String :=
  match remote with
  | Except.error e => (none, "", "Error: " ++ e)
  | Except.ok content =>
    let raw := String.mk (pyStripL content.toList)
    match parse_reply raw with
    | Except.ok v => v
    | Except.error e => (none, "", "Error: " ++ e)

/-! ### The DuckDB sink of `comment_rating_per_v2.py` -/

/-- A persisted row of the `comment_score` table (the server-assigned
`id` and `scored_at` columns are represented by position and omitted). -/
structure Row where
  title : String
  body : String
  property : String
  score : Option Int
  reason : String
  raw_resp : String
deriving DecidableEq

/-- A database: a finite association of table names to their rows. -/
abbrev DB := List (String × List Row)

/-- Does a table of this name exist in the database? -/
def hasTable (db : DB) (tn : String) : Bool :=
  db.any (fun t => t.1 = tn)

/-- `init_db` of `comment_rating_per_v2.py`: when `overwrite` is set the
database file is removed if present (`os.remove`); `duckdb.connect`
then opens the file, creating an empty database when absent; finally
`CREATE TABLE IF NOT EXISTS` adds the (empty) table unless it already
exists. -/
def init_db (file : Option DB) (table_name : String) (overwrite : Bool) : DB :=
  let file' := if overwrite then none else file
  let db := file'.getD []
  if hasTable db table_name then db else db ++ [(table_name, [])]

/-- `write_rows` of `comment_rating_per_v2.py`: `if not rows: return`
issues nothing; otherwise one `INSERT INTO table_name SELECT … FROM tmp`
appends the batch to the named table.  The second component records the
SQL insert statements executed. -/
def write_rows (db : DB) (rows : List Row) (table_name : String) :
    DB × List String :=
  if rows.isEmpty then (db, [])
  else
    (db.map (fun t => if t.1 = table_name then (t.1, t.2 ++ rows) else t),
     ["INSERT INTO " ++ table_name])

/-! ### `comment_rating.py`: checkpointing, final save, API key -/

/-- `save_to_feather_with_timestamp` of `comment_rating.py`: the
`df.to_feather` write (outcome passed in) is wrapped in `try`/`except`;
both branches return normally, the result records what was printed. -/
def save_to_feather_with_timestamp (write : Except String Unit) :
    Except String (List String) :=
  match write with
  | Except.ok _ => Except.ok ["Data successfully saved"]
  | Except.error e => Except.ok ["Error saving file: " ++ e]

/-- The final save step of `comment_rating.py` (lines 119–120): a bare
`to_feather` followed by a bare `to_excel`, no handler — a storage error
in the first call propagates to the caller and skips the second. -/
def final_save (feather xlsx : Except String Unit) : Except String Unit :=
  match feather with
  | Except.error e => Except.error e
  | Except.ok _ => xlsx

/-- The API-key check of `comment_rating.py` (lines 50–53):
`os.getenv("OPENAI_API_KEY")` is `none` when the variable is absent, in
which case a `ValueError` is raised. -/
def api_key_check (env : Option String) : Except String String :=
  match env with
  | none =>
    Except.error
      "API key not found. Please set the OPENAI_API_KEY environment variable."
  | some k => Except.ok k

/-- The script's control flow around the key check: the rating loop
(abstracted as `pipeline`, the requests it would issue given the key)
runs only after the check succeeds. -/
def rating_script (env : Option String) (pipeline : String → List String) :
    Except String (List String) :=
  match api_key_check env with
  | Except.error e => Except.error e
  | Except.ok key => Except.ok (pipeline key)

/-! ### `predict_gender` of `gender_prediction.py` -/

/-- `predict_gender` of `gender_prediction.py`, with the remote call's
outcome passed in: a fault returns `f"Error: {str(e)}"`; otherwise the
reply is stripped and lowercased, `"female"`-containing replies give
`"female"`, else `"male"`-containing replies give `"male"`, else the
normalized reply itself is returned. -/
def predict_gender (remote : Except String String) : String :=
  match remote with
  | Except.error e => "Error: " ++ e
  | Except.ok content =>
    let result := pyLower (pyStripL content.toList)
    if occurs "female".toList result then "female"
    else if occurs "male".toList result then "male"
    else String.mk result

/-! ## Lemmas about the reply matcher -/

theorem isPySpace_false_of_isDigit {c : Char} (h : c.isDigit = true) :
    isPySpace c = false := by
  cases hpw : isPySpace c with
  | false => rfl
  | true =>
    exfalso
    simp only [isPySpace, Bool.or_eq_true, decide_eq_true_eq] at hpw
    rcases hpw with ((((h' | h') | h') | h') | h') | h' <;>
      subst h' <;> exact absurd h (by decide)

theorem starWs_cons_nonspace (k : List Char → Option α) (c : Char)
    (cs : List Char) (h : isPySpace c = false) :
    starWs k (c :: cs) = k (c :: cs) := by
  simp [starWs, h]

theorem starWs_bracketEnd_close (g : List Char) :
    starWs (bracketEnd g) [']'] = some g := rfl

theorem starWs_bracketEnd_none (g : List Char) :
    ∀ s : List Char, (¬ ∀ c ∈ s, isPySpace c = true) →
      starWs (bracketEnd g) (s ++ [']']) = none := by
  intro s
  induction s with
  | nil =>
    intro h
    exact absurd (by intro c hc; cases hc) h
  | cons c t ih =>
    intro h
    have hne : (c :: (t ++ [']'])) ≠ [']'] := by
      intro heq
      rw [List.cons.injEq] at heq
      exact absurd heq.2 (by simp)
    by_cases hc : isPySpace c = true
    · have ht : ¬ ∀ x ∈ t, isPySpace x = true := by
        intro hall
        apply h
        intro x hx
        rcases List.mem_cons.mp hx with h' | h'
        · exact h' ▸ hc
        · exact hall x h'
      have h1 : starWs (bracketEnd g) ((c :: t) ++ [']']) =
          ((starWs (bracketEnd g) (t ++ [']'])) <|>
            bracketEnd g (c :: (t ++ [']']))) := by
        simp [starWs, hc]
      rw [h1, ih ht]
      simp [bracketEnd, hne]
    · have hc' : isPySpace c = false := by
        cases hcc : isPySpace c with
        | false => rfl
        | true => exact absurd hcc hc
      rw [show (c :: t) ++ [']'] = c :: (t ++ [']']) from rfl,
        starWs_cons_nonspace _ _ _ hc']
      simp [bracketEnd, hne]

theorem plusLazy_run (k : List Char → List Char → Option (List Char))
    (tl v : List Char) (t : List Char) :
    ∀ acc, t ≠ [] → '\n' ∉ t →
      (∀ p s, t = p ++ s → p ≠ [] → s ≠ [] → k (acc ++ p) (s ++ tl) = none) →
      k (acc ++ t) tl = some v →
      plusLazy k acc (t ++ tl) = some v := by
  induction t with
  | nil => intro acc h; exact absurd rfl h
  | cons c t ih =>
    intro acc _ hn hf hs
    have hcn : ¬ c = '\n' := by
      intro hc
      exact hn (hc ▸ List.mem_cons_self c t)
    have hstep : plusLazy k acc ((c :: t) ++ tl) =
        ((k (acc ++ [c]) (t ++ tl)) <|> plusLazy k (acc ++ [c]) (t ++ tl)) := by
      simp [plusLazy, hcn]
    rw [hstep]
    by_cases ht : t = []
    · subst ht
      have hk : k (acc ++ [c]) tl = some v := hs
      simp [hk]
    · have hknone : k (acc ++ [c]) (t ++ tl) = none :=
        hf [c] t rfl (by simp) ht
      rw [hknone]
      have hrec : plusLazy k (acc ++ [c]) (t ++ tl) = some v := by
        apply ih (acc ++ [c]) ht
        · intro hx; exact hn (List.mem_cons_of_mem c hx)
        · intro p s hps hp hsne
          have h2 : k (acc ++ (c :: p)) (s ++ tl) = none :=
            hf (c :: p) s (by simp [hps]) (by simp) hsne
          simpa [List.append_assoc] using h2
        · have h3 : acc ++ (c :: t) = (acc ++ [c]) ++ t := by simp
          rw [← h3]; exact hs
      rw [hrec]
      rfl

theorem tailMatch_exact (m : List Char) (hm : m ≠ [])
    (hh : (m.head?.all fun x => !isPySpace x) = true)
    (hl : (m.getLast?.all fun x => !isPySpace x) = true)
    (hn : '\n' ∉ m) :
    tailMatch (m ++ [']']) = some m := by
  obtain ⟨c, t, rfl⟩ : ∃ c t, m = c :: t := by
    cases m with
    | nil => exact absurd rfl hm
    | cons c t => exact ⟨c, t, rfl⟩
  have hc : isPySpace c = false := by
    simp only [List.head?_cons, Option.all_some, Bool.not_eq_true'] at hh
    exact hh
  unfold tailMatch
  rw [show (c :: t) ++ [']'] = c :: (t ++ [']']) from rfl,
    starWs_cons_nonspace _ _ _ hc]
  have hgoal := plusLazy_run (fun g r2 => starWs (bracketEnd g) r2)
    [']'] (c :: t) (c :: t) []
  rw [show ([] : List Char) ++ (c :: t) = c :: t from rfl] at hgoal
  apply hgoal
  · exact hm
  · exact hn
  · intro p s hps hp hsne
    simp only [List.nil_append]
    apply starWs_bracketEnd_none
    obtain ⟨z, hz⟩ : ∃ z, s.getLast? = some z :=
      ⟨s.getLast hsne, List.getLast?_eq_getLast_of_ne_nil hsne⟩
    have hlast : (c :: t).getLast? = some z := by
      rw [hps, List.getLast?_append_of_ne_nil _ hsne, hz]
    have hzws : isPySpace z = false := by
      rw [hlast] at hl
      simp only [Option.all_some, Bool.not_eq_true'] at hl
      exact hl
    intro hall
    have hzmem : z ∈ s := by
      have := List.getLast?_eq_getLast_of_ne_nil hsne
      rw [hz] at this
      have hz' : z = s.getLast hsne := Option.some.inj this
      exact hz' ▸ List.getLast_mem hsne
    rw [hall z hzmem] at hzws
    cases hzws
  · exact starWs_bracketEnd_close (c :: t)

theorem rateMatch_exact (d : Char) (m : List Char) (hd : d.isDigit = true)
    (hm : m ≠ [])
    (hh : (m.head?.all fun x => !isPySpace x) = true)
    (hl : (m.getLast?.all fun x => !isPySpace x) = true)
    (hn : '\n' ∉ m) :
    rateMatch ('[' :: d :: ',' :: (m ++ [']'])) = some (d, m) := by
  have hdws : isPySpace d = false := isPySpace_false_of_isDigit hd
  have hcomma : isPySpace ',' = false := rfl
  unfold rateMatch
  simp only [if_pos rfl]
  rw [starWs_cons_nonspace _ _ _ hdws]
  simp only [hd, if_pos rfl]
  rw [starWs_cons_nonspace _ _ _ hcomma]
  simp only [if_pos rfl]
  rw [tailMatch_exact m hm hh hl hn]
  rfl

theorem pyStripL_bracketed (xs : List Char) :
    pyStripL ('[' :: (xs ++ [']'])) = '[' :: (xs ++ [']']) := by
  unfold pyStripL
  have h1 : List.dropWhile isPySpace ('[' :: (xs ++ [']'])) =
      '[' :: (xs ++ [']']) := by
    rw [List.dropWhile_cons]
    simp [show isPySpace '[' = false from rfl]
  rw [h1]
  have h2 : ('[' :: (xs ++ [']'])).reverse = ']' :: (xs.reverse ++ ['[']) := by
    simp
  rw [h2, List.dropWhile_cons]
  simp [show isPySpace ']' = false from rfl]

theorem rate_comment_ok_def (content : String) :
    rate_comment (Except.ok content) =
      match parse_reply (String.mk (pyStripL content.toList)) with
      | Except.ok v => v
      | Except.error e => (none, "", "Error: " ++ e) := rfl

/-! ## Theorems -/

/-- C1 (amended): for every raw reply of the shape `[<digit>,<text>]`
whose text is nonempty, contains no newline, and neither starts nor ends
with whitespace, `rate_comment` returns score = that digit as an integer,
reason = that text exactly, and raw_resp = the input.  (Texts with
surrounding whitespace are stripped by the `\s*` groups of the regex, and
texts with an interior newline do not match at all — see the
counterexample.) -/
theorem rate_comment_digit_reason (d : Char) (m : List Char)
    (hd : d.isDigit = true) (hm : m ≠ [])
    (hh : (m.head?.all fun x => !isPySpace x) = true)
    (hl : (m.getLast?.all fun x => !isPySpace x) = true)
    (hn : '\n' ∉ m) :
    rate_comment (Except.ok (String.mk ('[' :: d :: ',' :: (m ++ [']'])))) =
      (some (digitToNat d), String.mk m,
        String.mk ('[' :: d :: ',' :: (m ++ [']']))) := by
  have hstrip : pyStripL ('[' :: d :: ',' :: (m ++ [']'])) =
      '[' :: d :: ',' :: (m ++ [']']) := by
    have h := pyStripL_bracketed (d :: ',' :: m)
    simpa using h
  have hne : ¬ String.mk ('[' :: d :: ',' :: (m ++ [']'])) = "[NaN,NaN]" := by
    intro h
    have h2 : '[' :: d :: ',' :: (m ++ [']']) = "[NaN,NaN]".toList :=
      congrArg String.toList h
    rw [show "[NaN,NaN]".toList =
      ['[', 'N', 'a', 'N', ',', 'N', 'a', 'N', ']'] from rfl] at h2
    have hdN : d = 'N' := by
      have h3 := (List.cons.injEq _ _ _ _).mp h2
      exact ((List.cons.injEq _ _ _ _).mp h3.2).1
    rw [hdN] at hd
    exact absurd hd (by decide)
  rw [rate_comment_ok_def]
  have hp : parse_reply
      (String.mk (pyStripL (String.mk ('[' :: d :: ',' :: (m ++ [']']))).toList)) =
      Except.ok (some (digitToNat d), String.mk m,
        String.mk ('[' :: d :: ',' :: (m ++ [']']))) := by
    rw [show (String.mk ('[' :: d :: ',' :: (m ++ [']']))).toList =
      '[' :: d :: ',' :: (m ++ [']']) from rfl, hstrip]
    unfold parse_reply
    rw [if_neg hne]
    rw [show (String.mk ('[' :: d :: ',' :: (m ++ [']']))).toList =
      '[' :: d :: ',' :: (m ++ [']']) from rfl]
    rw [rateMatch_exact d m hd hm hh hl hn]
  rw [hp]

/-- Witness for C1 at the reply `[4,ok]`. -/
theorem rate_comment_digit_reason_w :
    rate_comment (Except.ok (String.mk ('[' :: '4' :: ',' :: (['o', 'k'] ++ [']'])))) =
      (some (digitToNat '4'), String.mk ['o', 'k'],
        String.mk ('[' :: '4' :: ',' :: (['o', 'k'] ++ [']']))) :=
  rate_comment_digit_reason '4' ['o', 'k'] (by decide) (by decide) (by decide)
    (by decide) (by decide)

/-- Counterexample for C1 as stated: at `[4, x]` the text between the
comma and the closing bracket is `" x"`, but the returned reason is the
truncated `"x"`; and at `[4,a\nb]` (text `"a\nb"`) the regex does not
match at all and an error result is produced instead of score 4. -/
theorem rate_comment_digit_reason_cex :
    rate_comment (Except.ok "[4, x]") = (some 4, "x", "[4, x]") ∧
    rate_comment (Except.ok "[4, x]") ≠ (some 4, " x", "[4, x]") ∧
    rate_comment (Except.ok "[4,a\nb]") =
      (none, "", "Error: Unexpected format: [4,a\nb]") := by
  refine ⟨?_, ?_, ?_⟩ <;> decide

/-- C2 (amended): for every remote reply whose trimmed text equals the
sentinel `[NaN,NaN]`, `rate_comment` returns a not-applicable score
(`none`), an empty reason, and the trimmed reply — not the reply
itself — in the third component. -/
theorem rate_comment_sentinel (s : String)
    (h : pyStripL s.toList = "[NaN,NaN]".toList) :
    rate_comment (Except.ok s) = (none, "", "[NaN,NaN]") := by
  rw [rate_comment_ok_def, h]
  rfl

/-- Witness for C2 at a padded sentinel reply. -/
theorem rate_comment_sentinel_w :
    rate_comment (Except.ok " [NaN,NaN] ") = (none, "", "[NaN,NaN]") :=
  rate_comment_sentinel " [NaN,NaN] " (by decide)

/-- Counterexample for C2 as stated: at the reply `" [NaN,NaN]"` (trimmed
text equals the sentinel) the third component is the trimmed reply, not
the raw reply preserved unchanged. -/
theorem rate_comment_sentinel_cex :
    rate_comment (Except.ok " [NaN,NaN]") = (none, "", "[NaN,NaN]") ∧
    rate_comment (Except.ok " [NaN,NaN]") ≠ (none, "", " [NaN,NaN]") := by
  refine ⟨?_, ?_⟩ <;> decide

/-- C4: in `rate_comment` of the v2 script, a stripped reply that matches
neither the `[NaN,NaN]` sentinel nor the bracketed single-digit shape is
treated as fatal by the parsing code: the format violation is raised as a
`ValueError` that propagates out of the parse step (lines 62–67) to its
caller — the enclosing handler — rather than being silently converted to
empty values by the parse step itself. -/
theorem parse_reply_mismatch_raises (raw : String)
    (h1 : raw ≠ "[NaN,NaN]") (h2 : rateMatch raw.toList = none) :
    parse_reply raw = Except.error ("Unexpected format: " ++ raw) := by
  unfold parse_reply
  rw [if_neg h1, h2]

/-- Witness for C4 at the reply `not a valid reply`. -/
theorem parse_reply_mismatch_raises_w :
    parse_reply "not a valid reply" =
      Except.error ("Unexpected format: " ++ "not a valid reply") :=
  parse_reply_mismatch_raises "not a valid reply" (by decide) (by decide)

/-! ## Substring lemmas for `predict_gender` -/

theorem occurs_iff (n : List Char) (h : List Char) :
    occurs n h = true ↔ ∃ pre post, h = pre ++ (n ++ post) := by
  induction h with
  | nil =>
    simp only [occurs, List.isEmpty_iff]
    constructor
    · intro hn
      exact ⟨[], [], by simp [hn]⟩
    · rintro ⟨pre, post, hp⟩
      rcases List.append_eq_nil.mp hp.symm with ⟨h1, h2⟩
      exact (List.append_eq_nil.mp h2).1
  | cons c t ih =>
    simp only [occurs, Bool.or_eq_true]
    constructor
    · rintro (hp | ho)
      · obtain ⟨post, hpost⟩ := List.isPrefixOf_iff_prefix.mp hp
        exact ⟨[], post, by rw [← hpost]; rfl⟩
      · obtain ⟨pre, post, hp⟩ := ih.mp ho
        exact ⟨c :: pre, post, by rw [hp]; rfl⟩
    · rintro ⟨pre, post, hp⟩
      cases pre with
      | nil =>
        left
        exact List.isPrefixOf_iff_prefix.mpr ⟨post, by rw [hp]; rfl⟩
      | cons c' pre' =>
        right
        apply ih.mpr
        exact ⟨pre', post, ((List.cons.injEq _ _ _ _).mp hp).2⟩

/-- Every string containing `"female"` also contains `"male"`, since
`"male"` is a substring of `"female"` itself. -/
theorem occurs_male_of_occurs_female (s : List Char)
    (h : occurs "female".toList s = true) :
    occurs "male".toList s = true := by
  obtain ⟨pre, post, hp⟩ := (occurs_iff _ s).mp h
  apply (occurs_iff _ s).mpr
  refine ⟨pre ++ ['f', 'e'], post, ?_⟩
  rw [hp, show "female".toList = 'f' :: 'e' :: "male".toList from rfl]
  simp

/-- C10: the `"female"` check takes priority in `predict_gender`: every
reply whose lowercased trimmed content contains `"female"` yields
`"female"` (and every such content also contains `"male"` as a
substring); the function returns `"male"` exactly for contents containing
`"male"` but not `"female"`; and contents containing neither are returned
normalized but otherwise unchanged. -/
theorem predict_gender_female_priority (content : String) :
    ((occurs "female".toList (pyLower (pyStripL content.toList)) = true →
        predict_gender (Except.ok content) = "female") ∧
      (occurs "female".toList (pyLower (pyStripL content.toList)) = true →
        occurs "male".toList (pyLower (pyStripL content.toList)) = true)) ∧
    (predict_gender (Except.ok content) = "male" ↔
      (occurs "male".toList (pyLower (pyStripL content.toList)) = true ∧
        occurs "female".toList (pyLower (pyStripL content.toList)) = false)) ∧
    (occurs "female".toList (pyLower (pyStripL content.toList)) = false →
      occurs "male".toList (pyLower (pyStripL content.toList)) = false →
      predict_gender (Except.ok content) =
        String.mk (pyLower (pyStripL content.toList))) := by
  have hdef : predict_gender (Except.ok content) =
      (if occurs "female".toList (pyLower (pyStripL content.toList)) then "female"
       else if occurs "male".toList (pyLower (pyStripL content.toList)) then "male"
       else String.mk (pyLower (pyStripL content.toList))) := rfl
  cases hf : occurs "female".toList (pyLower (pyStripL content.toList)) with
  | true =>
    have hpred : predict_gender (Except.ok content) = "female" := by
      rw [hdef, hf]
      simp
    refine ⟨⟨fun _ => hpred, fun _ => occurs_male_of_occurs_female _ hf⟩, ?_, ?_⟩
    · constructor
      · intro hmm
        rw [hpred] at hmm
        exact absurd hmm (by decide)
      · rintro ⟨_, hff⟩
        cases hff
    · intro hff _
      cases hff
  | false =>
    cases hm : occurs "male".toList (pyLower (pyStripL content.toList)) with
    | true =>
      have hpred : predict_gender (Except.ok content) = "male" := by
        rw [hdef, hf, hm]
        simp
      refine ⟨⟨?_, ?_⟩, ?_, ?_⟩
      · intro hff; cases hff
      · intro hff; cases hff
      · exact ⟨fun _ => ⟨rfl, rfl⟩, fun _ => hpred⟩
      · intro _ hmm
        cases hmm
    | false =>
      have hpred : predict_gender (Except.ok content) =
          String.mk (pyLower (pyStripL content.toList)) := by
        rw [hdef, hf, hm]
        simp
      refine ⟨⟨?_, ?_⟩, ?_, ?_⟩
      · intro hff; cases hff
      · intro hff; cases hff
      · constructor
        · intro hmm
          rw [hpred] at hmm
          have hml : pyLower (pyStripL content.toList) = "male".toList :=
            congrArg String.toList hmm
          rw [hml] at hm
          exact absurd hm (by decide)
        · rintro ⟨hmm, _⟩
          cases hmm
      · intro _ _
        exact hpred

/-- Witness for C10: a reply containing the substring `female` (which
also contains `male`) is classified `female`; a reply containing only
`male` is classified `male`. -/
theorem predict_gender_female_priority_w :
    predict_gender (Except.ok " FEMALE!") = "female" ∧
    predict_gender (Except.ok "It is male.") = "male" :=
  ⟨(predict_gender_female_priority " FEMALE!").1.1 (by decide),
    ((predict_gender_female_priority "It is male.").2.1).mpr (by decide)⟩

/-- C3: the rating client never raises past its boundary: every fault of
the remote model call is caught by the `except` clause of `rate_comment`
and returned as an error-tagged result whose payload is the string
`"Error: <description>"`, never an uncaught fault. -/
theorem rate_comment_fail_closed (e : String) :
    rate_comment (Except.error e) = (none, "", "Error: " ++ e) := rfl

/-- C5: initializing the sink with `overwrite = true` against an existing
database file results in an empty store — the single created table has
zero persisted rows — before the first row is written. -/
theorem init_db_overwrite_empty (db0 : DB) (tn : String) :
    init_db (some db0) tn true = [(tn, [])] := rfl

/-- C6: re-opening the sink is idempotent-safe: initializing an existing
store without the overwrite flag neither deletes nor truncates existing
rows — every previously persisted table, with all its rows, is still
present after initialization. -/
theorem init_db_no_overwrite_preserves (db0 : DB) (tn t : String)
    (rows : List Row) (h : (t, rows) ∈ db0) :
    (t, rows) ∈ init_db (some db0) tn false := by
  have hdef : init_db (some db0) tn false =
      if hasTable db0 tn then db0 else db0 ++ [(tn, [])] := rfl
  rw [hdef]
  split
  · exact h
  · exact List.mem_append_left _ h

/-- Witness for C6 at a concrete store. -/
theorem init_db_no_overwrite_preserves_w :
    ("comment_score",
      [Row.mk "Love it" "Works great" "balance" (some 4) "ok" "[4,ok]"]) ∈
      init_db
        (some [("comment_score",
          [Row.mk "Love it" "Works great" "balance" (some 4) "ok" "[4,ok]"])])
        "comment_score" false :=
  init_db_no_overwrite_preserves _ "comment_score" _ _ (by decide)

/-- C7: checkpoint saves never raise past their boundary — for every
outcome of the underlying write, `save_to_feather_with_timestamp` returns
normally (with a log), so batch processing continues — while a storage
error during the final save step propagates to the caller uncaught. -/
theorem checkpoint_catches_final_propagates (w : Except String Unit)
    (e : String) (x : Except String Unit) :
    (∃ log, save_to_feather_with_timestamp w = Except.ok log) ∧
      final_save (Except.error e) x = Except.error e := by
  constructor
  · cases w with
    | ok u => exact ⟨["Data successfully saved"], rfl⟩
    | error e' => exact ⟨["Error saving file: " ++ e'], rfl⟩
  · rfl

/-- C8: if the API key environment variable is absent, the script raises
a fatal configuration error before any remote call: whatever requests the
rating loop would issue, none are performed and the error is returned. -/
theorem api_key_absent_fatal (pipeline : String → List String) :
    rating_script none pipeline =
      Except.error
        "API key not found. Please set the OPENAI_API_KEY environment variable." :=
  rfl

/-- C9: appending an empty batch is a no-op: for every sink state,
`write_rows` with an empty row list executes no insert statement and
leaves the database exactly unchanged. -/
theorem write_rows_empty_noop (db : DB) (tn : String) :
    write_rows db [] tn = (db, []) := rfl

end TagPilot
